import Mathlib

/-!
Verification development for the Cortex-AI chat-session core
(src/hooks/useChatHistory.ts and src/MainApp.tsx), shallowly embedded in Lean.

Conventions of the embedding:
* JS timestamps (Date.now()) are passed in explicitly as Nat parameters.
* JS strings are Lean Strings; toLowerCase / trim are modelled character-wise
  (JS semantics on the relevant ASCII inputs).
* The browser localStorage document under the chat-history key is modelled as
  the parsed List of stored sessions (JSON serialization is external).
* React setState sequencing inside one handler is modelled as sequential
  state transformation.
-/

namespace Cortex

/-- Message role, from the DisplayMessage type in src/types.ts. -/
inductive Role where
  | user
  | model
  deriving DecidableEq, Repr

/-- API-facing content fragment (the genai Part as used by this app:
a text fragment or inline binary data with a mimetype). -/
structure Part where
  text : Option String := none
  inlineData : Option (String × String) := none
  deriving DecidableEq, Repr

/-- UI-facing content fragment, from DisplayMessagePart in src/types.ts. -/
structure DisplayMessagePart where
  text : Option String := none
  image : Option (String × String) := none
  file : Option (String × String) := none
  deriving DecidableEq, Repr

/-- One conversation turn, from DisplayMessage in src/types.ts. Optional JS
flags are modelled with defaults (absent = false / none). -/
structure DisplayMessage where
  role : Role
  parts : List Part
  displayParts : List DisplayMessagePart
  timestamp : Nat
  isError : Bool := false
  isGenerating : Bool := false
  isCreditError : Bool := false
  generationProgress : Option String := none
  deriving DecidableEq, Repr

/-- One stored conversation, from StoredChatSession in src/types.ts. -/
structure StoredChatSession where
  id : String
  title : String
  messages : List DisplayMessage
  createdAt : Nat
  userId : String
  deriving DecidableEq, Repr

/-- API history entry: role plus API-facing parts (genai Content as built in
recreateGeminiSession). -/
structure Content where
  role : Role
  parts : List Part
  deriving DecidableEq, Repr

/-- The WELCOME_MESSAGE constant of src/hooks/useChatHistory.ts. Its
module-load timestamp is modelled as 0. -/
def WELCOME_MESSAGE : DisplayMessage :=
  { role := Role.model
    parts := [{ text := some "Hello! I\x27m Cortex, your AI assistant. You can ask me anything or switch to Image mode to generate pictures." }]
    displayParts := [{ text := some "Hello! I\x27m Cortex, your AI assistant. You can ask me anything or switch to Image mode to generate pictures." }]
    timestamp := 0 }

/-- MAX_TITLE_LENGTH of src/hooks/useChatHistory.ts. -/
def MAX_TITLE_LENGTH : Nat := 35

/-- Character-wise lower-casing, modelling the JS toLowerCase call on the
ASCII error keywords. -/
def strToLower (s : String) : String :=
  String.mk (s.toList.map Char.toLower)

/-- JS String.prototype.trim: strip leading and trailing whitespace. -/
def strTrim (s : String) : String :=
  String.mk (((s.toList.dropWhile Char.isWhitespace).reverse.dropWhile Char.isWhitespace).reverse)

/-- JS truthiness of an optional string (undefined and the empty string are
falsy). -/
def truthy : Option String → Bool
  | none => false
  | some s => s ≠ ""

/-- generateTitle of src/hooks/useChatHistory.ts: helper extracting the text
of the first truthy display part of the first user message. -/
def firstUserText (messages : List DisplayMessage) : Option String :=
  (messages.find? (fun m => m.role = Role.user)).bind
    (fun m => (m.displayParts.find? (fun p => truthy p.text)).bind (fun p => p.text))

/-- generateTitle of src/hooks/useChatHistory.ts. -/
def generateTitle (messages : List DisplayMessage) : String :=
  let firstText := (firstUserText messages).getD "New Chat"
  if firstText.length > MAX_TITLE_LENGTH then
    firstText.take MAX_TITLE_LENGTH ++ "..."
  else
    firstText

/-- The per-session branch of updateSessionMessages in
src/hooks/useChatHistory.ts (the body of the map over sessions); the
SetStateAction updater is modelled as a function of the previous list. -/
def applySessionUpdate (sessionId : String)
    (updater : List DisplayMessage → List DisplayMessage)
    (session : StoredChatSession) : StoredChatSession :=
  if session.id = sessionId then
    let newMessages := updater session.messages
    let updatedSession := { session with messages := newMessages }
    if (newMessages.filter (fun m => m.role = Role.user)).length = 1 ∧
        session.title = "New Chat" then
      { updatedSession with title := generateTitle newMessages }
    else
      updatedSession
  else
    session

/-- updateSessionMessages of src/hooks/useChatHistory.ts. -/
def updateSessionMessages (sessions : List StoredChatSession) (sessionId : String)
    (updater : List DisplayMessage → List DisplayMessage) : List StoredChatSession :=
  sessions.map (applySessionUpdate sessionId updater)

/-- updateSessionTitle of src/hooks/useChatHistory.ts. -/
def updateSessionTitle (sessions : List StoredChatSession) (sessionId : String)
    (newTitle : String) : List StoredChatSession :=
  let trimmedTitle := strTrim newTitle
  if trimmedTitle = "" then
    sessions
  else
    sessions.map (fun s => if s.id = sessionId then { s with title := trimmedTitle } else s)

/-- The JS sort by comparator (a, b) => b.createdAt - a.createdAt: a stable
sort descending by creation time (JS Array.prototype.sort is stable; any
stable sort computes the same list, here insertion sort). -/
def sortByCreatedAtDesc (l : List StoredChatSession) : List StoredChatSession :=
  List.insertionSort (fun a b => b.createdAt ≤ a.createdAt) l

/-- The fresh seeded session built in startNewChat and in the empty branch of
deleteChatSession: id is Date.now().toString(), one welcome message. -/
def freshSession (now : Nat) (userId : String) : StoredChatSession :=
  { id := toString now
    title := "New Chat"
    messages := [WELCOME_MESSAGE]
    createdAt := now
    userId := userId }

/-- The in-memory state of the useChatHistory hook: the session collection,
the active-session id (null before load), the context-id set (modelled as a
list queried by membership), and the fixed owning user id. -/
structure ChatState where
  sessions : List StoredChatSession
  activeSessionId : Option String
  contextSessionIds : List String
  userId : String
  deriving DecidableEq, Repr

/-- startNewChat of src/hooks/useChatHistory.ts. -/
def startNewChat (st : ChatState) (now : Nat) (isInitial : Bool) : ChatState :=
  let newSession := freshSession now st.userId
  let sessions := if isInitial then [newSession] else newSession :: st.sessions
  { st with sessions := sessions, activeSessionId := some newSession.id }

/-- deleteChatSession of src/hooks/useChatHistory.ts: drop the id from the
context set, filter the session out; if it was active, promote the head of
the descending sort of the remainder, or seed a fresh session when none
remain. -/
def deleteChatSession (st : ChatState) (sessionId : String) (now : Nat) : ChatState :=
  let ctx := st.contextSessionIds.filter (fun x => x ≠ sessionId)
  let newSessions := st.sessions.filter (fun s => s.id ≠ sessionId)
  if st.activeSessionId = some sessionId then
    if newSessions.isEmpty then
      let newSession := freshSession now st.userId
      { st with sessions := [newSession]
                activeSessionId := some newSession.id
                contextSessionIds := ctx }
    else
      { st with sessions := newSessions
                activeSessionId := ((sortByCreatedAtDesc newSessions).head?).map (fun s => s.id)
                contextSessionIds := ctx }
  else
    { st with sessions := newSessions, contextSessionIds := ctx }

/-- The load effect of src/hooks/useChatHistory.ts: filter the durable
collection to the user, sort descending by creation time and activate the
head, or start a fresh initial chat when the user has none. -/
def loadState (store : List StoredChatSession) (userId : String) (now : Nat) : ChatState :=
  let userSessions := store.filter (fun s => s.userId = userId)
  if userSessions.isEmpty then
    startNewChat { sessions := [], activeSessionId := none,
                   contextSessionIds := [], userId := userId } now true
  else
    let sortedSessions := sortByCreatedAtDesc userSessions
    { sessions := sortedSessions
      activeSessionId := (sortedSessions.head?).map (fun s => s.id)
      contextSessionIds := []
      userId := userId }

/-- The save effect of src/hooks/useChatHistory.ts: keep the stored sessions
of other users and append the in-memory collection, writing the whole
document back. -/
def saveStore (store : List StoredChatSession) (sessions : List StoredChatSession)
    (userId : String) : List StoredChatSession :=
  store.filter (fun s => s.userId ≠ userId) ++ sessions

/-- Map a message to the API history entry, as in recreateGeminiSession:
only role and API-facing parts survive. -/
def toContent (m : DisplayMessage) : Content :=
  { role := m.role, parts := m.parts }

/-- The history construction of recreateGeminiSession in
src/hooks/useChatHistory.ts: none when the target session is absent (the
function returns early); otherwise context-session messages (each list
minus its first, welcome, message) flattened then mapped, followed by the
active-session messages minus the first, mapped. -/
def buildCombinedHistory (targetSessionId : String)
    (allSessions : List StoredChatSession)
    (contextIds : List String) : Option (List Content) :=
  let contextSessions := allSessions.filter (fun s => contextIds.contains s.id)
  match allSessions.find? (fun s => s.id = targetSessionId) with
  | none => none
  | some activeSession =>
      let contextHistory := (contextSessions.flatMap (fun s => s.messages.drop 1)).map toContent
      let activeHistory := (activeSession.messages.drop 1).map toContent
      some (contextHistory ++ activeHistory)

/-- Written from the words of the spec (Session Assembler): for each session
of the collection whose id is selected, in collection order, its messages
with the welcome message dropped mapped to role and API parts, concatenated,
followed by the active-session messages treated the same way. -/
def assembledHistorySpec (activeSession : StoredChatSession)
    (allSessions : List StoredChatSession)
    (contextIds : List String) : List Content :=
  (allSessions.filter (fun s => contextIds.contains s.id)).flatMap
      (fun s => (s.messages.drop 1).map toContent)
    ++ (activeSession.messages.drop 1).map toContent

/-- Bool-valued substring test on character lists (JS String.includes). -/
def containsSub : List Char → List Char → Bool
  | [], pat => pat.isEmpty
  | c :: t, pat => pat.isPrefixOf (c :: t) || containsSub t pat

/-- JS String.prototype.includes, on Lean strings. -/
def includesSubstr (hay pat : String) : Bool :=
  containsSub hay.toList pat.toList

/-- isCreditError of src/MainApp.tsx: lower-case the error message and look
for any of the four keywords. -/
def isCreditError (message : String) : Bool :=
  let m := strToLower message
  includesSubstr m "quota" || includesSubstr m "billing" ||
    includesSubstr m "credit" || includesSubstr m "rate limit"

/-- The inline error message built in the chat catch branch of
handleSendMessage in src/MainApp.tsx (the Error case of the template). -/
def chatErrorMessage (message : String) (now : Nat) : DisplayMessage :=
  let errorMessageContent := "Sorry, something went wrong. Please try again. \n\n" ++ message
  { role := Role.model
    parts := [{ text := some errorMessageContent }]
    displayParts := [{ text := some errorMessageContent }]
    timestamp := now + 1
    isError := true
    isCreditError := isCreditError message }

/-- The history update of the chat catch branch: [...prev.slice(0, -1),
errorMessage], replacing the in-progress placeholder (the last entry). -/
def applyChatError (history : List DisplayMessage) (errorMessage : DisplayMessage) :
    List DisplayMessage :=
  history.dropLast ++ [errorMessage]

/-- The empty placeholder model response appended before streaming begins in
the chat branch of handleSendMessage (timestamp Date.now() + 1). -/
def chatPlaceholder (ts : Nat) : DisplayMessage :=
  { role := Role.model
    parts := [{ text := some "" }]
    displayParts := [{ text := some "" }]
    timestamp := ts }

/-- newHistory[newHistory.length - 1] = currentResponse: overwrite the last
entry of the history. -/
def setLast (history : List DisplayMessage) (m : DisplayMessage) : List DisplayMessage :=
  history.set (history.length - 1) m

/-- One iteration of the chat stream loop in handleSendMessage: a chunk with
truthy text replaces the accumulated cumulative text; the rebuilt
currentResponse (same timestamp) overwrites the last history entry. -/
def chatStreamStep (ts : Nat) (acc : List DisplayMessage × String)
    (chunkText : Option String) : List DisplayMessage × String :=
  let text := match chunkText with
    | some s => if s = "" then acc.2 else s
    | none => acc.2
  let currentResponse : DisplayMessage :=
    { role := Role.model
      parts := [{ text := some text }]
      displayParts := [{ text := some text }]
      timestamp := ts }
  (setLast acc.1 currentResponse, text)

/-- The chat branch of handleSendMessage on a successful stream: append the
user message and the placeholder, then fold the stream chunks through
chatStreamStep. -/
def runChatStream (ts : Nat) (history : List DisplayMessage)
    (userMessage : DisplayMessage) (chunks : List (Option String)) :
    List DisplayMessage :=
  (chunks.foldl (chatStreamStep ts) (history ++ [userMessage, chatPlaceholder ts], "")).1

/-- Written from the words of the spec (Message lifecycle): a progress update
mutates the message whose timestamp matches the target key, in place. -/
def updateByTimestamp (history : List DisplayMessage) (ts : Nat)
    (m : DisplayMessage) : List DisplayMessage :=
  history.map (fun msg => if msg.timestamp = ts then m else msg)

/-- onProgress of the video branch of handleSendMessage in src/MainApp.tsx:
set generationProgress on the message whose timestamp equals the loading
placeholder timestamp. -/
def onVideoProgress (loadingTimestamp : Nat) (status : String)
    (history : List DisplayMessage) : List DisplayMessage :=
  history.map (fun msg =>
    if msg.timestamp = loadingTimestamp then { msg with generationProgress := some status }
    else msg)

/-- One user interaction with the session store: a createSession
(startNewChat, non-initial as called from the UI) or a deleteSession
(deleteChatSession), each carrying the clock value at which it runs. -/
inductive Op where
  | newChat (now : Nat)
  | delete (sessionId : String) (now : Nat)
  deriving Repr

/-- Apply one operation to the hook state. -/
def applyOp (st : ChatState) : Op → ChatState
  | Op.newChat now => startNewChat st now false
  | Op.delete sessionId now => deleteChatSession st sessionId now

/-- Run a sequence of operations from a state. -/
def runOps (st : ChatState) (ops : List Op) : ChatState :=
  ops.foldl applyOp st

/-- The C1 invariant: the active-session id is set to exactly one id and some
session in the collection carries that id. -/
def ActiveOK (st : ChatState) : Prop :=
  ∃ a, st.activeSessionId = some a ∧ ∃ s ∈ st.sessions, s.id = a

theorem sortDesc_perm (l : List StoredChatSession) :
    (sortByCreatedAtDesc l).Perm l :=
  List.perm_insertionSort _ l

theorem sortDesc_ne_nil {l : List StoredChatSession} (h : l ≠ []) :
    ∃ m rest, sortByCreatedAtDesc l = m :: rest := by
  have hlen : (sortByCreatedAtDesc l).length = l.length := (sortDesc_perm l).length_eq
  cases hs : sortByCreatedAtDesc l with
  | nil =>
      exfalso
      apply h
      have : l.length = 0 := by rw [← hlen, hs]; rfl
      exact List.length_eq_zero.mp this
  | cons m rest => exact ⟨m, rest, rfl⟩

theorem sortDesc_cons_max {l : List StoredChatSession} {m : StoredChatSession}
    {rest : List StoredChatSession} (h : sortByCreatedAtDesc l = m :: rest) :
    m ∈ l ∧ ∀ s ∈ l, s.createdAt ≤ m.createdAt := by
  haveI : IsTotal StoredChatSession (fun a b => b.createdAt ≤ a.createdAt) :=
    ⟨fun a b => (Nat.le_total a.createdAt b.createdAt).symm.imp id id⟩
  haveI : IsTrans StoredChatSession (fun a b => b.createdAt ≤ a.createdAt) :=
    ⟨fun _ _ _ h1 h2 => Nat.le_trans h2 h1⟩
  have hperm := sortDesc_perm l
  have hsorted := List.sorted_insertionSort (fun a b : StoredChatSession =>
    b.createdAt ≤ a.createdAt) l
  rw [show List.insertionSort (fun a b : StoredChatSession =>
        b.createdAt ≤ a.createdAt) l = sortByCreatedAtDesc l from rfl, h] at hsorted
  rw [h] at hperm
  constructor
  · exact hperm.mem_iff.mp (List.mem_cons_self m rest)
  · intro s hs
    rcases List.mem_cons.mp (hperm.symm.mem_iff.mp hs) with h1 | h2
    · exact h1 ▸ Nat.le_refl _
    · exact List.rel_of_sorted_cons hsorted s h2

theorem activeOK_startNewChat (st : ChatState) (now : Nat) (isInitial : Bool) :
    ActiveOK (startNewChat st now isInitial) := by
  refine ⟨(freshSession now st.userId).id, rfl, freshSession now st.userId, ?_, rfl⟩
  cases isInitial <;> simp [startNewChat]

theorem activeOK_deleteChatSession {st : ChatState} (hst : ActiveOK st)
    (sessionId : String) (now : Nat) :
    ActiveOK (deleteChatSession st sessionId now) := by
  obtain ⟨a, ha, s, hs, hsid⟩ := hst
  unfold deleteChatSession
  by_cases hact : st.activeSessionId = some sessionId
  · rw [if_pos hact]
    by_cases hempty : (st.sessions.filter (fun s => s.id ≠ sessionId)).isEmpty
    · rw [if_pos hempty]
      exact ⟨(freshSession now st.userId).id, rfl, freshSession now st.userId,
        List.mem_singleton.mpr rfl, rfl⟩
    · rw [if_neg hempty]
      have hne : st.sessions.filter (fun s => s.id ≠ sessionId) ≠ [] := by
        intro hnil
        rw [hnil] at hempty
        exact hempty rfl
      obtain ⟨m, rest, hsort⟩ := sortDesc_ne_nil hne
      refine ⟨m.id, by rw [hsort]; rfl, m, ?_, rfl⟩
      exact (sortDesc_cons_max hsort).1
  · rw [if_neg hact]
    refine ⟨a, ha, s, ?_, hsid⟩
    have hane : a ≠ sessionId := by
      intro heq
      exact hact (heq ▸ ha)
    exact List.mem_filter.mpr ⟨hs, by simpa using hsid ▸ hane⟩

theorem activeOK_applyOp {st : ChatState} (hst : ActiveOK st) (op : Op) :
    ActiveOK (applyOp st op) := by
  cases op with
  | newChat now => exact activeOK_startNewChat st now false
  | delete sessionId now => exact activeOK_deleteChatSession hst sessionId now

theorem activeOK_runOps {st : ChatState} (hst : ActiveOK st) (ops : List Op) :
    ActiveOK (runOps st ops) := by
  induction ops generalizing st with
  | nil => exact hst
  | cons op ops ih => exact ih (activeOK_applyOp hst op)

theorem activeOK_loadState (store : List StoredChatSession) (userId : String)
    (now : Nat) : ActiveOK (loadState store userId now) := by
  unfold loadState
  by_cases hempty : (store.filter (fun s => s.userId = userId)).isEmpty
  · rw [if_pos hempty]
    exact activeOK_startNewChat _ now true
  · rw [if_neg hempty]
    have hne : store.filter (fun s => s.userId = userId) ≠ [] := by
      intro hnil
      rw [hnil] at hempty
      exact hempty rfl
    obtain ⟨m, rest, hsort⟩ := sortDesc_ne_nil hne
    exact ⟨m.id, by rw [hsort]; rfl, m, by rw [hsort]; exact List.mem_cons_self m rest, rfl⟩

/-- Claim C1: starting from a freshly loaded state, after every sequence of
createSession (startNewChat) and deleteSession (deleteChatSession) calls the
active-session id is set to exactly one id and a session with that id is
present in the in-memory collection. -/
theorem claim_C1_active_session_invariant (store : List StoredChatSession)
    (userId : String) (loadNow : Nat) (ops : List Op) :
    ActiveOK (runOps (loadState store userId loadNow) ops) :=
  activeOK_runOps (activeOK_loadState store userId loadNow) ops

/-- Claim C3: deleting the active session promotes the remaining session
with the greatest creation timestamp, removing only the deleted session;
deleting the last session leaves exactly one freshly seeded session (one
welcome message, default title), which becomes active. -/
theorem claim_C3_delete_active_session (st : ChatState) (a : String) (now : Nat)
    (h1 : st.activeSessionId = some a) (_h2 : ∃ s ∈ st.sessions, s.id = a) :
    (st.sessions.filter (fun s => s.id ≠ a) ≠ [] →
      (deleteChatSession st a now).sessions = st.sessions.filter (fun s => s.id ≠ a) ∧
      ∃ m ∈ st.sessions.filter (fun s => s.id ≠ a),
        (deleteChatSession st a now).activeSessionId = some m.id ∧
        ∀ s ∈ st.sessions.filter (fun s => s.id ≠ a), s.createdAt ≤ m.createdAt) ∧
    (st.sessions.filter (fun s => s.id ≠ a) = [] →
      (deleteChatSession st a now).sessions = [freshSession now st.userId] ∧
      (freshSession now st.userId).messages = [WELCOME_MESSAGE] ∧
      (freshSession now st.userId).title = "New Chat" ∧
      (deleteChatSession st a now).activeSessionId = some (freshSession now st.userId).id) := by
  clear _h2
  unfold deleteChatSession
  rw [if_pos h1]
  constructor
  · intro hne
    have hempty : (st.sessions.filter (fun s => s.id ≠ a)).isEmpty = false := by
      cases hf : st.sessions.filter (fun s => s.id ≠ a) with
      | nil => exact absurd hf hne
      | cons x xs => rfl
    rw [if_neg (show ¬(st.sessions.filter (fun s => s.id ≠ a)).isEmpty = true by
      rw [hempty]; exact Bool.false_ne_true)]
    obtain ⟨m, rest, hsort⟩ := sortDesc_ne_nil hne
    refine ⟨rfl, m, (sortDesc_cons_max hsort).1, by rw [hsort]; rfl,
      (sortDesc_cons_max hsort).2⟩
  · intro hnil
    have hempty : (st.sessions.filter (fun s => s.id ≠ a)).isEmpty = true := by
      rw [hnil]; rfl
    rw [if_pos hempty]
    exact ⟨rfl, rfl, rfl, rfl⟩

theorem buildCombinedHistory_eq {target : String} {allSessions : List StoredChatSession}
    (contextIds : List String) {act : StoredChatSession}
    (h : allSessions.find? (fun s => s.id = target) = some act) :
    buildCombinedHistory target allSessions contextIds =
      some (assembledHistorySpec act allSessions contextIds) := by
  unfold buildCombinedHistory assembledHistorySpec
  rw [h]
  simp [List.map_flatMap]

/-- Claim C2: the combined upstream history equals the spec-described list:
the welcome-stripped, role-and-parts-mapped messages of each context-selected
session in collection order, followed by those of the active session. -/
theorem claim_C2_assembled_history (target : String)
    (allSessions : List StoredChatSession) (contextIds : List String)
    (act : StoredChatSession)
    (h : allSessions.find? (fun s => s.id = target) = some act) :
    buildCombinedHistory target allSessions contextIds =
      some (assembledHistorySpec act allSessions contextIds) :=
  buildCombinedHistory_eq contextIds h

/-- Claim C10: when the active session is itself context-selected, its
welcome-stripped messages occur twice in the combined history: once inside
the context prefix and once as the active-session suffix. -/
theorem claim_C10_active_in_context (target : String)
    (allSessions : List StoredChatSession) (contextIds : List String)
    (act : StoredChatSession)
    (h1 : allSessions.find? (fun s => s.id = target) = some act)
    (h2 : contextIds.contains act.id = true) :
    ∃ pre post, buildCombinedHistory target allSessions contextIds =
      some (pre ++ (act.messages.drop 1).map toContent ++ post
        ++ (act.messages.drop 1).map toContent) := by
  rw [buildCombinedHistory_eq contextIds h1]
  have hact_mem : act ∈ allSessions := List.mem_of_find?_eq_some h1
  have hmem : act ∈ allSessions.filter (fun s => contextIds.contains s.id) :=
    List.mem_filter.mpr ⟨hact_mem, h2⟩
  obtain ⟨l1, l2, hsplit⟩ := List.append_of_mem hmem
  refine ⟨l1.flatMap (fun s => (s.messages.drop 1).map toContent),
    l2.flatMap (fun s => (s.messages.drop 1).map toContent), ?_⟩
  unfold assembledHistorySpec
  rw [hsplit]
  simp only [List.flatMap_append, List.flatMap_cons, List.append_assoc]

/-- Concrete session fixture: owner u, created at 100, one user turn. -/
def wS1 : StoredChatSession :=
  { id := "s1"
    title := "Alpha"
    messages := [WELCOME_MESSAGE,
      { role := Role.user, parts := [{ text := some "hi" }],
        displayParts := [{ text := some "hi" }], timestamp := 1 }]
    createdAt := 100
    userId := "u" }

/-- Concrete session fixture: owner u, created at 200. -/
def wS2 : StoredChatSession :=
  { id := "s2", title := "Beta", messages := [WELCOME_MESSAGE],
    createdAt := 200, userId := "u" }

/-- Concrete hook state fixture with wS2 active. -/
def wState : ChatState :=
  { sessions := [wS2, wS1], activeSessionId := some "s2",
    contextSessionIds := [], userId := "u" }

theorem claim_C2_witness :
    buildCombinedHistory "s1" [wS1] [] = some (assembledHistorySpec wS1 [wS1] []) :=
  claim_C2_assembled_history "s1" [wS1] [] wS1 (by decide)

theorem claim_C3_witness :
    (deleteChatSession wState "s2" 999).sessions
        = wState.sessions.filter (fun s => s.id ≠ "s2") ∧
    ∃ m ∈ wState.sessions.filter (fun s => s.id ≠ "s2"),
      (deleteChatSession wState "s2" 999).activeSessionId = some m.id ∧
      ∀ s ∈ wState.sessions.filter (fun s => s.id ≠ "s2"),
        s.createdAt ≤ m.createdAt :=
  (claim_C3_delete_active_session wState "s2" 999 rfl
    ⟨wS2, by decide, by decide⟩).1 (by decide)

theorem claim_C10_witness :
    ∃ pre post, buildCombinedHistory "s1" [wS1] ["s1"] =
      some (pre ++ (wS1.messages.drop 1).map toContent ++ post
        ++ (wS1.messages.drop 1).map toContent) :=
  claim_C10_active_in_context "s1" [wS1] ["s1"] wS1 (by decide) (by decide)

/-- Claim C4 counterexample: as stated over every in-memory collection the
round trip fails. Saving an empty collection and loading yields a fresh
seeded session rather than the empty collection, and saving a collection
that is not sorted newest-first loads back in a different order. -/
theorem claim_C4_counterexample :
    (loadState (saveStore [] ([] : List StoredChatSession) "u") "u" 7).sessions ≠ [] ∧
    (loadState (saveStore [] [wS1, wS2] "u") "u" 7).sessions ≠ [wS1, wS2] := by
  constructor
  · decide
  · decide

/-- Claim C4 (amended): for a nonempty in-memory collection whose sessions
all belong to the user and which is sorted descending by creation time (as
the hook maintains it), save followed by load for the same user yields the
same collection; and for every other user, save preserves that user's stored
sessions exactly. -/
theorem claim_C4_save_load_roundtrip (store sessions : List StoredChatSession)
    (u : String) (now : Nat) (h0 : sessions ≠ [])
    (h1 : ∀ s ∈ sessions, s.userId = u)
    (h2 : List.Sorted (fun a b : StoredChatSession => b.createdAt ≤ a.createdAt) sessions) :
    (loadState (saveStore store sessions u) u now).sessions = sessions ∧
    ∀ v, v ≠ u → (saveStore store sessions u).filter (fun s => s.userId = v)
        = store.filter (fun s => s.userId = v) := by
  have hkey : (saveStore store sessions u).filter (fun s => s.userId = u) = sessions := by
    unfold saveStore
    rw [List.filter_append]
    have hnil : (store.filter (fun s => s.userId ≠ u)).filter (fun s => s.userId = u) = [] := by
      apply List.filter_eq_nil_iff.mpr
      intro x hx
      have := (List.mem_filter.mp hx).2
      simp at this ⊢
      exact this
    have hself : sessions.filter (fun s => s.userId = u) = sessions := by
      apply List.filter_eq_self.mpr
      intro x hx
      simpa using h1 x hx
    rw [hnil, hself, List.nil_append]
  constructor
  · unfold loadState
    rw [hkey]
    have hempty : sessions.isEmpty = false := by
      cases sessions with
      | nil => exact absurd rfl h0
      | cons x xs => rfl
    rw [if_neg (show ¬sessions.isEmpty = true by rw [hempty]; exact Bool.false_ne_true)]
    show sortByCreatedAtDesc sessions = sessions
    exact List.Sorted.insertionSort_eq h2
  · intro v hv
    unfold saveStore
    rw [List.filter_append]
    have hnilv : sessions.filter (fun s => s.userId = v) = [] := by
      apply List.filter_eq_nil_iff.mpr
      intro x hx
      have := h1 x hx
      simp [this]
      intro hxv
      exact hv hxv.symm
    have hsame : (store.filter (fun s => s.userId ≠ u)).filter (fun s => s.userId = v)
        = store.filter (fun s => s.userId = v) := by
      rw [List.filter_filter]
      apply List.filter_congr
      intro x _
      by_cases hxv : x.userId = v
      · simp [hxv, hv]
      · simp [hxv]
    rw [hnilv, hsame, List.append_nil]

theorem claim_C4_witness :
    (loadState (saveStore [] [wS2, wS1] "u") "u" 7).sessions = [wS2, wS1] ∧
    ∀ v, v ≠ "u" → (saveStore [] [wS2, wS1] "u").filter (fun s => s.userId = v)
        = ([] : List StoredChatSession).filter (fun s => s.userId = v) :=
  claim_C4_save_load_roundtrip [] [wS2, wS1] "u" 7 (by decide) (by decide)
    (by decide)

/-- Claim C5: after an updateMessages call on a session titled with the
default placeholder whose new message list holds exactly one user message,
the new title is the first truthy display text of that user message,
truncated to 35 characters plus an ellipsis when longer, kept verbatim when
at most 35, and the fixed default string when the message has no text
fragment. -/
theorem claim_C5_auto_title (sessionId : String)
    (f : List DisplayMessage → List DisplayMessage) (s : StoredChatSession)
    (hid : s.id = sessionId) (htitle : s.title = "New Chat")
    (hone : ((f s.messages).filter (fun m => m.role = Role.user)).length = 1) :
    (∀ sessions : List StoredChatSession,
        updateSessionMessages sessions sessionId f
          = sessions.map (applySessionUpdate sessionId f)) ∧
    (∀ t, firstUserText (f s.messages) = some t →
        (MAX_TITLE_LENGTH < t.length →
          (applySessionUpdate sessionId f s).title = t.take MAX_TITLE_LENGTH ++ "...") ∧
        (t.length ≤ MAX_TITLE_LENGTH →
          (applySessionUpdate sessionId f s).title = t)) ∧
    (firstUserText (f s.messages) = none →
        (applySessionUpdate sessionId f s).title = "New Chat") := by
  have hstep : (applySessionUpdate sessionId f s).title = generateTitle (f s.messages) := by
    unfold applySessionUpdate
    rw [if_pos hid]
    dsimp only
    rw [if_pos ⟨hone, htitle⟩]
  refine ⟨fun _ => rfl, ?_, ?_⟩
  · intro t ht
    rw [hstep]
    unfold generateTitle
    rw [ht]
    dsimp only [Option.getD_some]
    constructor
    · intro hlen
      rw [if_pos hlen]
    · intro hle
      rw [if_neg (Nat.not_lt.mpr hle)]
  · intro ht
    rw [hstep]
    unfold generateTitle
    rw [ht]
    dsimp only [Option.getD_none]
    rw [if_neg (by decide)]

/-- Concrete user message fixture. -/
def wUserMsg : DisplayMessage :=
  { role := Role.user, parts := [{ text := some "hello" }],
    displayParts := [{ text := some "hello" }], timestamp := 3 }

/-- Concrete freshly seeded session fixture. -/
def wNewSession : StoredChatSession :=
  { id := "n1", title := "New Chat", messages := [WELCOME_MESSAGE],
    createdAt := 50, userId := "u" }

theorem claim_C5_witness :
    (applySessionUpdate "n1" (fun ms => ms ++ [wUserMsg]) wNewSession).title = "hello" :=
  ((claim_C5_auto_title "n1" (fun ms => ms ++ [wUserMsg]) wNewSession rfl rfl
    (by decide)).2.1 "hello" (by decide)).2 (by decide)

/-- Another concrete message fixture, timestamp 9. -/
def wOther : DisplayMessage :=
  { role := Role.user, parts := [{ text := some "x" }],
    displayParts := [{ text := some "x" }], timestamp := 9 }

/-- Claim C6 counterexample: the chat stream loop overwrites the LAST entry
of the history, not the entry whose timestamp matches the placeholder key;
on a history whose last entry is not the placeholder, the two mechanisms
disagree. -/
theorem claim_C6_counterexample :
    (chatStreamStep 5 ([chatPlaceholder 5, wOther], "") (some "Hi")).1 ≠
      updateByTimestamp [chatPlaceholder 5, wOther] 5
        { role := Role.model, parts := [{ text := some "Hi" }],
          displayParts := [{ text := some "Hi" }], timestamp := 5 } := by
  decide

theorem setLast_append_singleton (l : List DisplayMessage) (x m : DisplayMessage) :
    setLast (l ++ [x]) m = l ++ [m] := by
  unfold setLast
  rw [List.length_append]
  simp

/-- Claim C6 (amended): chat streaming progress overwrites the last history
entry (the placeholder, which is last during the stream); video polling
progress mutates by timestamp match; after the cumulative chunks Hi,
Hi there, Hi there! the history holds exactly one message with the
placeholder timestamp and its text is Hi there!. -/
theorem claim_C6_stream_updates (base : List DisplayMessage)
    (userMessage : DisplayMessage) (ts : Nat)
    (hb : ∀ m ∈ base, m.timestamp ≠ ts) (hu : userMessage.timestamp ≠ ts) :
    runChatStream ts base userMessage [some "Hi", some "Hi there", some "Hi there!"] =
      base ++ [userMessage,
        { role := Role.model, parts := [{ text := some "Hi there!" }],
          displayParts := [{ text := some "Hi there!" }], timestamp := ts }] ∧
    ((runChatStream ts base userMessage
        [some "Hi", some "Hi there", some "Hi there!"]).filter
        (fun m => m.timestamp = ts)).length = 1 ∧
    ∀ (status : String) (history : List DisplayMessage) (i : Nat)
      (h1 : i < history.length) (h2 : i < (onVideoProgress ts status history).length),
      (onVideoProgress ts status history).get ⟨i, h2⟩ =
        (if (history.get ⟨i, h1⟩).timestamp = ts
         then { history.get ⟨i, h1⟩ with generationProgress := some status }
         else history.get ⟨i, h1⟩) := by
  have key : runChatStream ts base userMessage
      [some "Hi", some "Hi there", some "Hi there!"] =
      base ++ [userMessage,
        { role := Role.model, parts := [{ text := some "Hi there!" }],
          displayParts := [{ text := some "Hi there!" }], timestamp := ts }] := by
    unfold runChatStream
    rw [show base ++ [userMessage, chatPlaceholder ts]
        = (base ++ [userMessage]) ++ [chatPlaceholder ts] by simp]
    simp only [List.foldl_cons, List.foldl_nil, chatStreamStep,
      setLast_append_singleton]
    simp
  refine ⟨key, ?_, ?_⟩
  · rw [key]
    have hbase : base.filter (fun m => m.timestamp = ts) = [] :=
      List.filter_eq_nil_iff.mpr (fun m hm => by simpa using hb m hm)
    rw [List.filter_append, hbase]
    simp [hu]
  · intro status history i h1 h2
    simp only [List.get_eq_getElem]
    simp only [onVideoProgress, List.getElem_map]

theorem claim_C6_witness :
    runChatStream 10 [] wUserMsg [some "Hi", some "Hi there", some "Hi there!"] =
      [wUserMsg,
        { role := Role.model, parts := [{ text := some "Hi there!" }],
          displayParts := [{ text := some "Hi there!" }], timestamp := 10 }] := by
  have h := (claim_C6_stream_updates [] wUserMsg 10
    (by intro m hm; exact absurd hm (List.not_mem_nil m)) (by decide)).1
  simpa using h

theorem containsSub_iff (hay pat : List Char) :
    containsSub hay pat = true ↔ pat <:+: hay := by
  induction hay with
  | nil =>
      show pat.isEmpty = true ↔ pat <:+: []
      rw [List.infix_nil, List.isEmpty_iff]
  | cons c t ih =>
      show (pat.isPrefixOf (c :: t) || containsSub t pat) = true ↔ pat <:+: c :: t
      rw [List.infix_cons_iff, Bool.or_eq_true, ih, List.isPrefixOf_iff_prefix]

/-- Claim C7: an upstream error is classified credit-exhausted exactly when
the lowercased message contains quota, billing, credit, or rate limit as a
substring; otherwise the built inline error message (carrying the
classification and the error flag) replaces the in-progress placeholder,
the last entry of the history. -/
theorem claim_C7_credit_error_classification (message : String)
    (history : List DisplayMessage) (now : Nat) :
    (isCreditError message = true ↔
      ("quota".toList <:+: (strToLower message).toList ∨
       "billing".toList <:+: (strToLower message).toList ∨
       "credit".toList <:+: (strToLower message).toList ∨
       "rate limit".toList <:+: (strToLower message).toList)) ∧
    applyChatError history (chatErrorMessage message now)
      = history.dropLast ++ [chatErrorMessage message now] ∧
    (chatErrorMessage message now).isCreditError = isCreditError message ∧
    (chatErrorMessage message now).isError = true := by
  refine ⟨?_, rfl, rfl, rfl⟩
  unfold isCreditError includesSubstr
  simp only [Bool.or_eq_true, containsSub_iff, or_assoc]

/-- Claim C8: renameSession with a title that trims to empty changes
nothing; with a title that trims non-empty it sets exactly the matching
session's title to the trimmed string and leaves every other session
unchanged. -/
theorem claim_C8_rename (sessions : List StoredChatSession)
    (sessionId newTitle : String) :
    (strTrim newTitle = "" → updateSessionTitle sessions sessionId newTitle = sessions) ∧
    (strTrim newTitle ≠ "" →
      (updateSessionTitle sessions sessionId newTitle).length = sessions.length ∧
      ∀ (i : Nat) (h1 : i < sessions.length)
        (h2 : i < (updateSessionTitle sessions sessionId newTitle).length),
        ((sessions.get ⟨i, h1⟩).id = sessionId →
          (updateSessionTitle sessions sessionId newTitle).get ⟨i, h2⟩
            = { sessions.get ⟨i, h1⟩ with title := strTrim newTitle }) ∧
        ((sessions.get ⟨i, h1⟩).id ≠ sessionId →
          (updateSessionTitle sessions sessionId newTitle).get ⟨i, h2⟩
            = sessions.get ⟨i, h1⟩)) := by
  constructor
  · intro h
    unfold updateSessionTitle
    rw [if_pos h]
  · intro h
    have hmap : updateSessionTitle sessions sessionId newTitle =
        sessions.map (fun s =>
          if s.id = sessionId then { s with title := strTrim newTitle } else s) := by
      unfold updateSessionTitle
      rw [if_neg h]
    refine ⟨by rw [hmap, List.length_map], ?_⟩
    intro i h1 h2
    constructor
    · intro hid
      simp only [List.get_eq_getElem] at hid ⊢
      simp only [hmap, List.getElem_map]
      rw [if_pos hid]
    · intro hid
      simp only [List.get_eq_getElem] at hid ⊢
      simp only [hmap, List.getElem_map]
      rw [if_neg hid]

theorem claim_C8_witness :
    updateSessionTitle [wS1] "s1" "   " = [wS1] ∧
    (updateSessionTitle [wS1] "s1" " T ").get ⟨0, by decide⟩
      = { wS1 with title := "T" } := by
  refine ⟨(claim_C8_rename [wS1] "s1" "   ").1 (by decide), ?_⟩
  have h := (((claim_C8_rename [wS1] "s1" " T ").2 (by decide)).2 0 (by decide)
    (by decide)).1 (by decide)
  exact h

theorem applySessionUpdate_other {sessionId : String}
    {f : List DisplayMessage → List DisplayMessage} {s : StoredChatSession}
    (h : s.id ≠ sessionId) : applySessionUpdate sessionId f s = s := by
  unfold applySessionUpdate
  rw [if_neg h]

/-- Claim C9: updateMessages preserves the collection length, leaves every
session whose id differs from the target unchanged at its position, and is
the identity when no session carries the target id. -/
theorem claim_C9_update_messages_frame (sessions : List StoredChatSession)
    (sessionId : String) (f : List DisplayMessage → List DisplayMessage) :
    (updateSessionMessages sessions sessionId f).length = sessions.length ∧
    (∀ (i : Nat) (h1 : i < sessions.length)
       (h2 : i < (updateSessionMessages sessions sessionId f).length),
       (sessions.get ⟨i, h1⟩).id ≠ sessionId →
       (updateSessionMessages sessions sessionId f).get ⟨i, h2⟩ = sessions.get ⟨i, h1⟩) ∧
    ((∀ s ∈ sessions, s.id ≠ sessionId) →
       updateSessionMessages sessions sessionId f = sessions) := by
  refine ⟨List.length_map sessions _, ?_, ?_⟩
  · intro i h1 h2 hid
    simp only [List.get_eq_getElem] at hid ⊢
    simp only [updateSessionMessages, List.getElem_map]
    exact applySessionUpdate_other hid
  · intro hall
    unfold updateSessionMessages
    rw [List.map_congr_left (fun s hs => applySessionUpdate_other (hall s hs))]
    exact List.map_id' sessions

theorem claim_C9_witness :
    updateSessionMessages [wS1] "zzz" (fun ms => ms ++ [wUserMsg]) = [wS1] :=
  (claim_C9_update_messages_frame [wS1] "zzz" (fun ms => ms ++ [wUserMsg])).2.2
    (by decide)

end Cortex
